import Mathlib

/-!
Verification of the gaming-twin backend (src/main.py) against its
natural-language specification.

The Python service keeps, per user, a `digital_twins` row holding
`thresholds`, `aggregates` (three minute counters) and a derived `state`.
We embed the handlers of `main.py` as pure Lean functions over an explicit
store (a map from user id to an optional twin row).  SQL columns that may
be NULL are modelled as `Option`; the Python code's read-side defaulting
(`row[0] or ...`, `aggregates.get(key, 0)`) is translated at exactly the
places the source performs it.
-/

namespace GamingTwin

/-- Aggregate snapshot: the three running counters stored in the
`aggregates` JSON column.  Python ints are unbounded, so `Int`. -/
structure AggregateSnapshot where
  today_minutes : Int
  weekly_minutes : Int
  night_minutes : Int
deriving Repr, DecidableEq

/-- Per-user thresholds stored in the `thresholds` JSON column. -/
structure Thresholds where
  daily : Int
  night : Int
deriving Repr, DecidableEq

/-- Behavioral state column (enum-as-text in the DB). -/
inductive TwinState where
  | Healthy
  | Moderate
  | Excessive
deriving Repr, DecidableEq

/-- One `digital_twins` row.  All three payload columns are nullable:
`INSERT INTO digital_twins (user_id)` (main.py lines 70-77, 231-238)
creates a row whose payload columns are unset. -/
structure DigitalTwinRow where
  thresholds : Option Thresholds
  aggregates : Option AggregateSnapshot
  state : Option TwinState
deriving Repr, DecidableEq

/-- The `digital_twins` table: a key-value map from user id to row. -/
def Store : Type := String → Option DigitalTwinRow

/-- Incoming event body (`GamingEvent` pydantic model, main.py lines 12-15).
It has exactly the fields `user_id`, `game_name`, `duration`; there is no
`occurred_at` field in the source model. -/
structure EventIn where
  user_id : String
  game_name : String
  duration : Int
deriving Repr, DecidableEq

/-- Write one row into the twins table. -/
def setTwin (tw : Store) (u : String) (r : DigitalTwinRow) : Store :=
  fun v => if v = u then some r else tw v

/-- Fresh row produced by `INSERT INTO digital_twins (user_id) VALUES (%s)`:
payload columns unset. -/
def blankRow : DigitalTwinRow := ⟨none, none, none⟩

/-- Model of `INSERT ... ON CONFLICT (user_id) DO NOTHING`
(main.py lines 70-77 and 231-238): insert-if-absent. -/
def insertTwinIfAbsent (tw : Store) (u : String) : Store :=
  match tw u with
  | some _ => tw
  | none => setTwin tw u blankRow

/-- Zeroed aggregates, the default the engine substitutes when the
`aggregates` column is unset (main.py lines 87-92). -/
def zeroAggregates : AggregateSnapshot := ⟨0, 0, 0⟩

/-- Default thresholds substituted at read time when the `thresholds`
column is unset (main.py lines 209-210 and 239-241). -/
def defaultThresholds : Thresholds := ⟨120, 60⟩

/-- Time of day as seconds since midnight (0 ≤ t < 86400 for real clock
readings; the definition is total).  `datetime.now().time()` in the source. -/
def secondsAt (h m s : Nat) : Nat := h * 3600 + m * 60 + s

/-- Night-window test from main.py line 104:
`now >= time(22, 0) or now <= time(6, 0)`.  Both comparisons are on the
wall-clock time of day; both endpoints are inclusive. -/
def isNight (t : Nat) : Bool :=
  decide (secondsAt 22 0 0 ≤ t) || decide (t ≤ secondsAt 6 0 0)

/-- State decision from main.py lines 109-114:
`if new_today > 120: Excessive elif new_today > 60: Moderate else Healthy`.
It takes only `today_minutes`; the user's configured thresholds are not an
input. -/
def classifyState (today : Int) : TwinState :=
  if today > 120 then TwinState.Excessive
  else if today > 60 then TwinState.Moderate
  else TwinState.Healthy

/-- Effective aggregates of a user: the value the engine computes at
main.py lines 84-92 (unset column, absent row and absent keys all read
as zeros). -/
def getAggs (tw : Store) (u : String) : AggregateSnapshot :=
  match tw u with
  | none => zeroAggregates
  | some r => r.aggregates.getD zeroAggregates

/-- Successful response body of `POST /events` (main.py lines 132-139). -/
structure IngestResponse where
  user_id : String
  game : String
  today_minutes : Int
  weekly_minutes : Int
  state : TwinState
deriving Repr, DecidableEq

/-- Happy path of `ingest_event` (main.py lines 56-139), with the wall
clock passed explicitly as `now` (seconds since midnight): ensure the twin
row exists, read aggregates (defaulting to zeros), add the duration to
`today_minutes` and `weekly_minutes`, add it to `night_minutes` iff
`isNight now`, classify, and write aggregates and state back in one row
update.  Returns the updated twins table and the response body.  (The
append-only `events` ledger insert has no effect on the twins table and is
modelled in the fallible version below.) -/
def applyEvent (now : Nat) (e : EventIn) (tw : Store) : Store × IngestResponse :=
  let tw1 := insertTwinIfAbsent tw e.user_id
  let row := (tw1 e.user_id).getD blankRow
  let aggs := row.aggregates.getD zeroAggregates
  let newToday := aggs.today_minutes + e.duration
  let newWeekly := aggs.weekly_minutes + e.duration
  let newNight :=
    if isNight now then aggs.night_minutes + e.duration else aggs.night_minutes
  let newState := classifyState newToday
  let row2 : DigitalTwinRow :=
    { row with aggregates := some ⟨newToday, newWeekly, newNight⟩,
               state := some newState }
  (setTwin tw1 e.user_id row2, ⟨e.user_id, e.game_name, newToday, newWeekly, newState⟩)

/-- Sequential application of a list of (wall-clock, event) pairs,
left to right. -/
def applyEvents (evs : List (Nat × EventIn)) (tw : Store) : Store :=
  evs.foldl (fun acc p => (applyEvent p.1 p.2 acc).1) tw

/-- The empty twins table. -/
def emptyStore : Store := fun _ => none

-- ---------- basic lemmas ----------

theorem setTwin_self (tw : Store) (u : String) (r : DigitalTwinRow) :
    setTwin tw u r u = some r := by
  simp [setTwin]

theorem setTwin_other (tw : Store) (u v : String) (r : DigitalTwinRow)
    (h : v ≠ u) : setTwin tw u r v = tw v := by
  simp [setTwin, h]

/-- After `applyEvent`, the acting user's effective aggregates are the old
ones with the duration added to today and weekly, and to night iff the
processing time is in the night window. -/
theorem getAggs_applyEvent (now : Nat) (e : EventIn) (tw : Store) :
    getAggs (applyEvent now e tw).1 e.user_id =
      ⟨(getAggs tw e.user_id).today_minutes + e.duration,
       (getAggs tw e.user_id).weekly_minutes + e.duration,
       (getAggs tw e.user_id).night_minutes +
         (if isNight now then e.duration else 0)⟩ := by
  cases htw : tw e.user_id with
  | none =>
      simp [applyEvent, insertTwinIfAbsent, htw, getAggs, setTwin_self,
        blankRow, zeroAggregates]
  | some r =>
      cases hag : r.aggregates with
      | none =>
          simp [applyEvent, insertTwinIfAbsent, htw, hag, getAggs,
            setTwin_self, zeroAggregates]
      | some a =>
          simp [applyEvent, insertTwinIfAbsent, htw, hag, getAggs,
            setTwin_self]
          split <;> simp

/-- `applyEvent` does not touch other users' rows. -/
theorem applyEvent_other (now : Nat) (e : EventIn) (tw : Store)
    (v : String) (h : v ≠ e.user_id) :
    (applyEvent now e tw).1 v = tw v := by
  cases htw : tw e.user_id <;>
    simp [applyEvent, insertTwinIfAbsent, htw, setTwin, h]

-- ---------- C3 ----------

/-- C3: the state classifier uses the fixed cutoffs 120 and 60 — Excessive
iff today_minutes > 120, Moderate iff 60 < today_minutes ≤ 120, Healthy iff
today_minutes ≤ 60 — independently of any configured thresholds (they are
not an input to `classifyState`), and in particular 60 ↦ Healthy,
61 ↦ Moderate, 120 ↦ Moderate, 121 ↦ Excessive. -/
theorem C3_state_classifier_cutoffs :
    (∀ t : Int,
      (classifyState t = TwinState.Excessive ↔ 120 < t) ∧
      (classifyState t = TwinState.Moderate ↔ 60 < t ∧ t ≤ 120) ∧
      (classifyState t = TwinState.Healthy ↔ t ≤ 60)) ∧
    classifyState 60 = TwinState.Healthy ∧
    classifyState 61 = TwinState.Moderate ∧
    classifyState 120 = TwinState.Moderate ∧
    classifyState 121 = TwinState.Excessive := by
  refine ⟨fun t => ⟨?_, ?_, ?_⟩, by decide, by decide, by decide, by decide⟩
  · unfold classifyState
    split
    · simp; omega
    · split <;> simp <;> omega
  · unfold classifyState
    split
    · simp; omega
    · split <;> simp <;> omega
  · unfold classifyState
    split
    · simp; omega
    · split <;> simp <;> omega

-- ---------- C4 ----------

/-- C4: `night_minutes` is incremented by the event's duration iff the
wall-clock processing time `now` is in the closed night window
(`now ≥ 22:00` or `now ≤ 06:00`, both endpoints inclusive, so a literal
06:00:00 counts as night), while `today_minutes` and `weekly_minutes` are
incremented unconditionally; the event body carries no occurrence time, so
only the processing clock can matter. -/
theorem C4_night_window_attribution :
    (∀ (now : Nat) (e : EventIn) (tw : Store),
      (getAggs (applyEvent now e tw).1 e.user_id).night_minutes =
        (getAggs tw e.user_id).night_minutes +
          (if isNight now then e.duration else 0) ∧
      (getAggs (applyEvent now e tw).1 e.user_id).today_minutes =
        (getAggs tw e.user_id).today_minutes + e.duration ∧
      (getAggs (applyEvent now e tw).1 e.user_id).weekly_minutes =
        (getAggs tw e.user_id).weekly_minutes + e.duration) ∧
    (∀ t : Nat, isNight t = true ↔ secondsAt 22 0 0 ≤ t ∨ t ≤ secondsAt 6 0 0) ∧
    isNight (secondsAt 22 0 0) = true ∧
    isNight (secondsAt 6 0 0) = true ∧
    isNight (secondsAt 6 0 1) = false ∧
    isNight (secondsAt 21 59 59) = false ∧
    isNight (secondsAt 23 0 0) = true ∧
    isNight (secondsAt 5 30 0) = true ∧
    isNight (secondsAt 12 0 0) = false := by
  refine ⟨fun now e tw => ?_, fun t => ?_, by decide, by decide, by decide,
    by decide, by decide, by decide, by decide⟩
  · rw [getAggs_applyEvent]
    exact ⟨rfl, rfl, rfl⟩
  · simp [isNight]

-- ---------- sequential application lemmas ----------

/-- Events for one user built from (wall-clock, duration) pairs. -/
def eventsFor (u g : String) (evs : List (Nat × Int)) : List (Nat × EventIn) :=
  evs.map (fun p => (p.1, ⟨u, g, p.2⟩))

theorem applyEvents_today_weekly (u g : String) (evs : List (Nat × Int))
    (tw : Store) :
    (getAggs (applyEvents (eventsFor u g evs) tw) u).today_minutes =
      (getAggs tw u).today_minutes + (evs.map Prod.snd).sum ∧
    (getAggs (applyEvents (eventsFor u g evs) tw) u).weekly_minutes =
      (getAggs tw u).weekly_minutes + (evs.map Prod.snd).sum := by
  induction evs generalizing tw with
  | nil => simp [eventsFor, applyEvents]
  | cons p rest ih =>
      have step := getAggs_applyEvent p.1 ⟨u, g, p.2⟩ tw
      have hrec := ih (applyEvent p.1 ⟨u, g, p.2⟩ tw).1
      simp only [eventsFor, List.map_cons, applyEvents, List.foldl_cons] at hrec ⊢
      rw [hrec.1, hrec.2, step]
      constructor <;> simp <;> ring

theorem applyEvents_night_le_today (u g : String) (evs : List (Nat × Int))
    (tw : Store) (hd : ∀ p ∈ evs, 0 ≤ p.2)
    (h : (getAggs tw u).night_minutes ≤ (getAggs tw u).today_minutes) :
    (getAggs (applyEvents (eventsFor u g evs) tw) u).night_minutes ≤
      (getAggs (applyEvents (eventsFor u g evs) tw) u).today_minutes := by
  induction evs generalizing tw with
  | nil => simpa [eventsFor, applyEvents] using h
  | cons p rest ih =>
      have step := getAggs_applyEvent p.1 ⟨u, g, p.2⟩ tw
      have hp : (0 : Int) ≤ p.2 := hd p (List.mem_cons_self p rest)
      simp only [eventsFor, List.map_cons, applyEvents, List.foldl_cons]
      refine ih (applyEvent p.1 ⟨u, g, p.2⟩ tw).1 (fun q hq => hd q (List.mem_cons_of_mem p hq)) ?_
      rw [step]
      by_cases hn : isNight p.1 <;> simp [hn] <;> omega

-- ---------- C2 ----------

/-- C2: applying events e1..eN with durations d1..dN sequentially for one
user, starting from a twin with zeroed aggregates, leaves both
`today_minutes` and `weekly_minutes` equal to the sum of the durations. -/
theorem C2_sequential_additivity (u g : String) (evs : List (Nat × Int))
    (tw : Store) (h : getAggs tw u = zeroAggregates) :
    (getAggs (applyEvents (eventsFor u g evs) tw) u).today_minutes =
      (evs.map Prod.snd).sum ∧
    (getAggs (applyEvents (eventsFor u g evs) tw) u).weekly_minutes =
      (evs.map Prod.snd).sum := by
  have := applyEvents_today_weekly u g evs tw
  rw [h] at this
  simpa [zeroAggregates] using this

/-- Witness for C2 at a concrete input: three events of durations 25, 0, 40
applied to the empty store give today = weekly = 65. -/
theorem C2_sequential_additivity_witness :
    getAggs emptyStore "alice" = zeroAggregates ∧
    (getAggs (applyEvents (eventsFor "alice" "chess"
        [(43200, 25), (43200, 0), (82800, 40)]) emptyStore) "alice").today_minutes
      = ([(43200, (25 : Int)), (43200, 0), (82800, 40)].map Prod.snd).sum ∧
    (getAggs (applyEvents (eventsFor "alice" "chess"
        [(43200, 25), (43200, 0), (82800, 40)]) emptyStore) "alice").weekly_minutes
      = ([(43200, (25 : Int)), (43200, 0), (82800, 40)].map Prod.snd).sum := by
  have h : getAggs emptyStore "alice" = zeroAggregates := rfl
  exact ⟨h, C2_sequential_additivity "alice" "chess"
    [(43200, 25), (43200, 0), (82800, 40)] emptyStore h⟩

-- ---------- C8 ----------

/-- C8: with a non-negative duration (the Event data-model precondition),
one `applyEvent` call leaves each of the three counters at least its
previous value. -/
theorem C8_counters_monotone (now : Nat) (e : EventIn) (tw : Store)
    (h : 0 ≤ e.duration) :
    (getAggs tw e.user_id).today_minutes ≤
      (getAggs (applyEvent now e tw).1 e.user_id).today_minutes ∧
    (getAggs tw e.user_id).weekly_minutes ≤
      (getAggs (applyEvent now e tw).1 e.user_id).weekly_minutes ∧
    (getAggs tw e.user_id).night_minutes ≤
      (getAggs (applyEvent now e tw).1 e.user_id).night_minutes := by
  rw [getAggs_applyEvent]
  dsimp only
  refine ⟨by omega, by omega, ?_⟩
  by_cases hn : isNight now
  · simp [hn]
    omega
  · simp [hn]

/-- Witness for C8 at a concrete input. -/
theorem C8_counters_monotone_witness :
    (0 : Int) ≤ (7 : Int) ∧
    ((getAggs emptyStore "bob").today_minutes ≤
      (getAggs (applyEvent 43200 ⟨"bob", "go", 7⟩ emptyStore).1 "bob").today_minutes ∧
    (getAggs emptyStore "bob").weekly_minutes ≤
      (getAggs (applyEvent 43200 ⟨"bob", "go", 7⟩ emptyStore).1 "bob").weekly_minutes ∧
    (getAggs emptyStore "bob").night_minutes ≤
      (getAggs (applyEvent 43200 ⟨"bob", "go", 7⟩ emptyStore).1 "bob").night_minutes) :=
  ⟨by decide, C8_counters_monotone 43200 ⟨"bob", "go", 7⟩ emptyStore (by decide)⟩

-- ---------- C10 ----------

/-- C10: for aggregates built only by sequential `applyEvent` calls from
the all-zero default with non-negative durations, `today_minutes` always
equals `weekly_minutes`, and `night_minutes` never exceeds
`today_minutes`. -/
theorem C10_today_eq_weekly_and_night_le (u g : String)
    (evs : List (Nat × Int)) (tw : Store)
    (h : getAggs tw u = zeroAggregates) (hd : ∀ p ∈ evs, 0 ≤ p.2) :
    (getAggs (applyEvents (eventsFor u g evs) tw) u).today_minutes =
      (getAggs (applyEvents (eventsFor u g evs) tw) u).weekly_minutes ∧
    (getAggs (applyEvents (eventsFor u g evs) tw) u).night_minutes ≤
      (getAggs (applyEvents (eventsFor u g evs) tw) u).today_minutes := by
  have hw := applyEvents_today_weekly u g evs tw
  refine ⟨by rw [hw.1, hw.2, h]; simp [zeroAggregates], ?_⟩
  refine applyEvents_night_le_today u g evs tw hd ?_
  rw [h]
  simp [zeroAggregates]

/-- Witness for C10 at a concrete input. -/
theorem C10_today_eq_weekly_and_night_le_witness :
    (getAggs (applyEvents (eventsFor "carol" "rpg"
        [(43200, 10), (82800, 20)]) emptyStore) "carol").today_minutes =
      (getAggs (applyEvents (eventsFor "carol" "rpg"
        [(43200, 10), (82800, 20)]) emptyStore) "carol").weekly_minutes ∧
    (getAggs (applyEvents (eventsFor "carol" "rpg"
        [(43200, 10), (82800, 20)]) emptyStore) "carol").night_minutes ≤
      (getAggs (applyEvents (eventsFor "carol" "rpg"
        [(43200, 10), (82800, 20)]) emptyStore) "carol").today_minutes :=
  C10_today_eq_weekly_and_night_le "carol" "rpg"
    [(43200, 10), (82800, 20)] emptyStore rfl (by decide)

-- ---------- threshold manager and reads ----------

/-- Effective thresholds of a user: the per-field defaulting the source
performs on read (main.py lines 209-210 and 239-241). -/
def getThresholds (tw : Store) (u : String) : Thresholds :=
  match tw u with
  | none => defaultThresholds
  | some r => r.thresholds.getD defaultThresholds

/-- Happy path of `update_threshold` (main.py lines 216-260): read existing
thresholds; if the row is absent insert it and start from the defaults,
else default an unset column; overwrite `daily` and then `night` when the
body supplies them; write the merged thresholds back; return them. -/
def update_threshold (u : String) (d n : Option Int) (tw : Store) :
    Store × Thresholds :=
  let pair : Store × Thresholds :=
    match tw u with
    | none => (insertTwinIfAbsent tw u, defaultThresholds)
    | some row => (tw, row.thresholds.getD defaultThresholds)
  let tw1 := pair.1
  let base := pair.2
  let th1 := match d with
    | some x => { base with daily := x }
    | none => base
  let th2 := match n with
    | some x => { th1 with night := x }
    | none => th1
  let row : DigitalTwinRow := (tw1 u).getD blankRow
  (setTwin tw1 u { row with thresholds := some th2 }, th2)

/-- Response of `GET /digital-twin/{user_id}` (main.py lines 144-171):
either the raw row or the not-found indicator. -/
inductive TwinView where
  | notFound
  | found (user_id : String) (thresholds : Option Thresholds)
      (aggregates : Option AggregateSnapshot) (state : Option TwinState)
deriving Repr, DecidableEq

/-- Model of `get_twin` (main.py lines 144-171). -/
def get_twin (u : String) (tw : Store) : TwinView :=
  match tw u with
  | none => TwinView.notFound
  | some r => TwinView.found u r.thresholds r.aggregates r.state

/-- Flattened report body (main.py lines 203-211). -/
structure Report where
  user_id : String
  today_minutes : Int
  weekly_minutes : Int
  night_minutes : Int
  state : Option TwinState
  daily_threshold : Int
  night_threshold : Int
deriving Repr, DecidableEq

/-- Response of `GET /reports/{user_id}`: report or not-found indicator. -/
inductive ReportView where
  | notFound
  | found (r : Report)
deriving Repr, DecidableEq

/-- Model of `get_report` (main.py lines 174-211): not-found when no row;
otherwise unset aggregates read as zeros and unset thresholds as
daily 120 / night 60. -/
def get_report (u : String) (tw : Store) : ReportView :=
  match tw u with
  | none => ReportView.notFound
  | some r =>
      let th := r.thresholds.getD defaultThresholds
      let ag := r.aggregates.getD zeroAggregates
      ReportView.found
        ⟨u, ag.today_minutes, ag.weekly_minutes, ag.night_minutes,
         r.state, th.daily, th.night⟩

-- ---------- C6 ----------

/-- C6: `update_threshold` merges only the supplied fields into the user's
effective existing thresholds (omitted fields keep their prior values),
leaves the row present (creating it if absent), persists the merged value
so a subsequent read sees it, and returns the full merged thresholds; in
particular from existing daily 150 / night 50, supplying only night 40
yields daily 150 / night 40. -/
theorem C6_threshold_partial_update :
    (∀ (u : String) (d n : Option Int) (tw : Store),
      (update_threshold u d n tw).2 =
        ⟨d.getD (getThresholds tw u).daily, n.getD (getThresholds tw u).night⟩ ∧
      ((update_threshold u d n tw).1 u).isSome = true ∧
      getThresholds (update_threshold u d n tw).1 u =
        (update_threshold u d n tw).2) ∧
    (update_threshold "dave" none (some 40)
        (setTwin emptyStore "dave" ⟨some ⟨150, 50⟩, none, none⟩)).2 =
      ⟨150, 40⟩ := by
  refine ⟨fun u d n tw => ?_, by decide⟩
  cases htw : tw u with
  | none =>
      cases d <;> cases n <;>
        simp [update_threshold, htw, getThresholds, insertTwinIfAbsent,
          setTwin_self, setTwin, defaultThresholds]
  | some row =>
      cases hth : row.thresholds <;> cases d <;> cases n <;>
        simp [update_threshold, htw, hth, getThresholds, setTwin_self,
          setTwin, defaultThresholds]

-- ---------- C7 ----------

/-- C7: for a never-seen user, the insert-if-absent step that both
`applyEvent` and `update_threshold` perform creates exactly one row for
that user (all other rows unchanged), whose effective thresholds are the
defaults daily 120 / night 60 and whose effective aggregates are all zero,
before the event or update is applied; the creation is idempotent, and
both operations leave the user's row present. -/
theorem C7_idempotent_creation (tw : Store) (u : String) (h : tw u = none) :
    insertTwinIfAbsent tw u u = some blankRow ∧
    getThresholds (insertTwinIfAbsent tw u) u = defaultThresholds ∧
    getAggs (insertTwinIfAbsent tw u) u = zeroAggregates ∧
    (∀ v, v ≠ u → insertTwinIfAbsent tw u v = tw v) ∧
    insertTwinIfAbsent (insertTwinIfAbsent tw u) u = insertTwinIfAbsent tw u ∧
    (∀ (now : Nat) (e : EventIn), e.user_id = u →
      ((applyEvent now e tw).1 u).isSome = true) ∧
    (∀ d n : Option Int, ((update_threshold u d n tw).1 u).isSome = true) := by
  refine ⟨?_, ?_, ?_, ?_, ?_, ?_, ?_⟩
  · simp [insertTwinIfAbsent, h, setTwin_self]
  · simp [insertTwinIfAbsent, h, getThresholds, setTwin_self, blankRow]
  · simp [insertTwinIfAbsent, h, getAggs, setTwin_self, blankRow]
  · intro v hv
    simp [insertTwinIfAbsent, h, setTwin, hv]
  · funext v
    by_cases hv : v = u <;>
      simp [insertTwinIfAbsent, h, setTwin, hv]
  · intro now e he
    subst he
    simp [applyEvent, insertTwinIfAbsent, h, setTwin_self]
  · intro d n
    simp [update_threshold, h, setTwin_self]

/-- Witness for C7 at a concrete input: the empty store has no row for
the user. -/
theorem C7_idempotent_creation_witness :
    emptyStore "erin" = none ∧
    insertTwinIfAbsent emptyStore "erin" "erin" = some blankRow ∧
    getThresholds (insertTwinIfAbsent emptyStore "erin") "erin" = defaultThresholds ∧
    getAggs (insertTwinIfAbsent emptyStore "erin") "erin" = zeroAggregates ∧
    insertTwinIfAbsent emptyStore "erin" "zoe" = emptyStore "zoe" ∧
    insertTwinIfAbsent (insertTwinIfAbsent emptyStore "erin") "erin" =
      insertTwinIfAbsent emptyStore "erin" ∧
    ((applyEvent 0 ⟨"erin", "go", 3⟩ emptyStore).1 "erin").isSome = true ∧
    ((update_threshold "erin" none none emptyStore).1 "erin").isSome = true := by
  have h := C7_idempotent_creation emptyStore "erin" rfl
  exact ⟨rfl, h.1, h.2.1, h.2.2.1, h.2.2.2.1 "zoe" (by decide), h.2.2.2.2.1,
    h.2.2.2.2.2.1 0 ⟨"erin", "go", 3⟩ rfl, h.2.2.2.2.2.2 none none⟩

-- ---------- C9 ----------

/-- C9: for a user with no twin row, both reads return the structured
not-found indicator, and for a user whose row exists with an unset
thresholds column, the report carries the defaults daily 120 / night 60. -/
theorem C9_not_found_and_report_defaults (tw : Store) (u : String) :
    (tw u = none → get_twin u tw = TwinView.notFound ∧
      get_report u tw = ReportView.notFound) ∧
    (∀ r : DigitalTwinRow, tw u = some r → r.thresholds = none →
      get_report u tw = ReportView.found
        ⟨u, (r.aggregates.getD zeroAggregates).today_minutes,
         (r.aggregates.getD zeroAggregates).weekly_minutes,
         (r.aggregates.getD zeroAggregates).night_minutes,
         r.state, 120, 60⟩) := by
  refine ⟨fun h => ?_, fun r hr hth => ?_⟩
  · exact ⟨by simp [get_twin, h], by simp [get_report, h]⟩
  · simp [get_report, hr, hth, defaultThresholds]

/-- Witness for C9 at concrete inputs: an absent user, and a row whose
thresholds column is unset. -/
theorem C9_not_found_and_report_defaults_witness :
    get_twin "frank" emptyStore = TwinView.notFound ∧
    get_report "frank" emptyStore = ReportView.notFound ∧
    get_report "frank" (setTwin emptyStore "frank"
        ⟨none, some ⟨5, 6, 7⟩, some TwinState.Healthy⟩) = ReportView.found
      ⟨"frank", 5, 6, 7, some TwinState.Healthy, 120, 60⟩ := by
  have h1 := (C9_not_found_and_report_defaults emptyStore "frank").1 rfl
  have h2 := (C9_not_found_and_report_defaults
      (setTwin emptyStore "frank" ⟨none, some ⟨5, 6, 7⟩, some TwinState.Healthy⟩)
      "frank").2 ⟨none, some ⟨5, 6, 7⟩, some TwinState.Healthy⟩
      (setTwin_self _ _ _) rfl
  exact ⟨h1.1, h1.2, h2⟩

-- ---------- fallible, transactional ingest (for C5) ----------

/-- Full database state: the append-only `events` ledger and the
`digital_twins` table, the two relations of main.py. -/
structure DB where
  events : List EventIn
  twins : Store

/-- Response envelope of `POST /events`: the success body of main.py lines
132-139 or the flat error envelope of line 141
(`status error` plus a message). -/
inductive Envelope where
  | processed (user_id game : String) (today weekly : Int) (state : TwinState)
  | error (message : String)
deriving Repr, DecidableEq

/-- Fallible `ingest_event` (main.py lines 48-141) over a transactional
store.  The five database operations run in source order: 0 the raw-event
INSERT, 1 the twin insert-if-absent, 2 the aggregates SELECT, 3 the
aggregates-and-state UPDATE (one statement writing both columns),
4 `conn.commit()`.  `failAt = some k` makes operation `k` raise.  Writes
accumulate in the transaction-local copy and only a successful commit
publishes them; a raise lands in the `except` branch, which returns the
error envelope while the uncommitted transaction is rolled back, leaving
the durable database unchanged.  The function body attempts the sequence
exactly once: there is no retry loop in the source. -/
def ingestEvent (failAt : Option Nat) (msg : String) (now : Nat)
    (e : EventIn) (db : DB) : DB × Envelope :=
  if failAt = some 0 then (db, Envelope.error msg) else
  let pend0 : DB := ⟨db.events ++ [e], db.twins⟩
  if failAt = some 1 then (db, Envelope.error msg) else
  let pend1 : DB := ⟨pend0.events, insertTwinIfAbsent pend0.twins e.user_id⟩
  if failAt = some 2 then (db, Envelope.error msg) else
  let aggs := getAggs pend1.twins e.user_id
  let newToday := aggs.today_minutes + e.duration
  let newWeekly := aggs.weekly_minutes + e.duration
  let newNight :=
    if isNight now then aggs.night_minutes + e.duration else aggs.night_minutes
  let newState := classifyState newToday
  if failAt = some 3 then (db, Envelope.error msg) else
  let row := (pend1.twins e.user_id).getD blankRow
  let pend2 : DB := ⟨pend1.events,
    setTwin pend1.twins e.user_id
      { row with aggregates := some ⟨newToday, newWeekly, newNight⟩,
                 state := some newState }⟩
  if failAt = some 4 then (db, Envelope.error msg) else
  (pend2, Envelope.processed e.user_id e.game_name newToday newWeekly newState)

/-- The failure-free run of `ingestEvent` publishes exactly the `applyEvent`
result for the twins table, appends the event to the ledger, and returns
the processed envelope. -/
theorem ingestEvent_success (msg : String) (now : Nat) (e : EventIn)
    (db : DB) :
    ingestEvent none msg now e db =
      (⟨db.events ++ [e], (applyEvent now e db.twins).1⟩,
       Envelope.processed e.user_id e.game_name
         (applyEvent now e db.twins).2.today_minutes
         (applyEvent now e db.twins).2.weekly_minutes
         (applyEvent now e db.twins).2.state) := by
  cases htw : db.twins e.user_id with
  | none =>
      simp [ingestEvent, applyEvent, getAggs, insertTwinIfAbsent, htw,
        setTwin_self, blankRow]
  | some r =>
      cases hag : r.aggregates <;>
        simp [ingestEvent, applyEvent, getAggs, insertTwinIfAbsent, htw, hag,
          setTwin_self]

-- ---------- C5 ----------

/-- C5: if any of the five persistence operations of `ingest_event` fails,
the whole call aborts with the durable database unchanged (neither the
event-ledger insert nor the aggregates-and-state update is committed) and
the caller receives the flat error envelope with the failure message; the
single attempt is not retried (a failed run never returns a processed
envelope).  When nothing fails, aggregates and state are published
together, in the single committed row update that `applyEvent` describes. -/
theorem C5_persistence_failure_atomicity (k : Nat) (hk : k ≤ 4)
    (msg : String) (now : Nat) (e : EventIn) (db : DB) :
    (ingestEvent (some k) msg now e db).1 = db ∧
    (ingestEvent (some k) msg now e db).2 = Envelope.error msg ∧
    (∀ resp : Envelope, (ingestEvent (some k) msg now e db).2 = resp →
      ∀ uid g t w st, resp ≠ Envelope.processed uid g t w st) ∧
    (ingestEvent none msg now e db).1.twins = (applyEvent now e db.twins).1 ∧
    (ingestEvent none msg now e db).1.events = db.events ++ [e] := by
  have hsucc := ingestEvent_success msg now e db
  interval_cases k <;>
    exact ⟨by simp [ingestEvent], by simp [ingestEvent],
      by intro resp hresp uid g t w st
         simp [ingestEvent] at hresp
         subst hresp
         simp,
      by rw [hsucc], by rw [hsucc]⟩

/-- Witness for C5 at a concrete input: the commit step fails. -/
theorem C5_persistence_failure_atomicity_witness :
    (4 : Nat) ≤ 4 ∧
    (ingestEvent (some 4) "db down" 43200 ⟨"gail", "sim", 9⟩
        ⟨[], emptyStore⟩).1 = ⟨[], emptyStore⟩ ∧
    (ingestEvent (some 4) "db down" 43200 ⟨"gail", "sim", 9⟩
        ⟨[], emptyStore⟩).2 = Envelope.error "db down" := by
  have h := C5_persistence_failure_atomicity 4 (by decide) "db down" 43200
    ⟨"gail", "sim", 9⟩ ⟨[], emptyStore⟩
  exact ⟨by decide, h.1, h.2.1⟩

-- ---------- concurrency model (for C1) ----------

/-- One concurrent `ingest_event` call for a fixed user, split at its two
interactions with the `today_minutes` counter: `read i` is transaction
`i`'s SELECT of the current aggregates (main.py lines 80-92, after which
`new_today = read value + duration` is computed at line 95), and `write i`
is its UPDATE-and-commit (lines 117-128), which stores the value computed
from that transaction's own read.  The store itself uses plain
last-writer-wins row updates: no locking, versioning or conditional
update appears in the source. -/
inductive RMWAction where
  | read (i : Nat)
  | write (i : Nat)
deriving Repr, DecidableEq

/-- Interleaving state for one user's `today_minutes`: the committed value
and, per transaction, the value it read (none before its read). -/
structure ConcState where
  today : Int
  readVals : Nat → Option Int

/-- Effect of one action.  A write before the matching read cannot occur
in a real interleaving and is a no-op here. -/
def rmwStep (durs : Nat → Int) (s : ConcState) (a : RMWAction) : ConcState :=
  match a with
  | RMWAction.read i =>
      ⟨s.today, fun j => if j = i then some s.today else s.readVals j⟩
  | RMWAction.write i =>
      match s.readVals i with
      | none => s
      | some v => ⟨v + durs i, s.readVals⟩

/-- Committed `today_minutes` after running a schedule of interleaved
read/write steps from a given baseline. -/
def runSchedule (durs : Nat → Int) (init : Int) (sched : List RMWAction) : Int :=
  (sched.foldl (rmwStep durs) ⟨init, fun _ => none⟩).today

/-- Sanity link to the engine embedding: the serial (non-overlapping)
schedule of two transactions produces exactly the `today_minutes` of two
sequential `applyEvent` calls. -/
theorem runSchedule_serial_agrees (d0 d1 : Int) (u g0 g1 : String)
    (now0 now1 : Nat) (tw : Store) :
    runSchedule (fun i => if i = 0 then d0 else d1)
        (getAggs tw u).today_minutes
        [RMWAction.read 0, RMWAction.write 0,
         RMWAction.read 1, RMWAction.write 1] =
      (getAggs (applyEvent now1 ⟨u, g1, d1⟩
          (applyEvent now0 ⟨u, g0, d0⟩ tw).1).1 u).today_minutes := by
  have h0 := getAggs_applyEvent now0 ⟨u, g0, d0⟩ tw
  have h1 := getAggs_applyEvent now1 ⟨u, g1, d1⟩ (applyEvent now0 ⟨u, g0, d0⟩ tw).1
  simp only at h0 h1
  rw [h1, h0]
  simp [runSchedule, rmwStep]

-- ---------- C1 ----------

/-- C1 (refuted as stated; lost-update demonstration): with a zero
baseline and two concurrent duration-1 transactions for the same user,
the interleaving read 0, read 1, write 0, write 1 — both SELECTs before
either UPDATE — commits a final `today_minutes` of 1, not the 0 + 1 + 1 = 2
the claim requires: the second last-writer-wins UPDATE overwrites the
first and one event's contribution is silently lost.  The same two
transactions run serially do give 2. -/
theorem C1_lost_update_counterexample :
    runSchedule (fun _ => 1) 0
        [RMWAction.read 0, RMWAction.read 1,
         RMWAction.write 0, RMWAction.write 1] = 1 ∧
    runSchedule (fun _ => 1) 0
        [RMWAction.read 0, RMWAction.write 0,
         RMWAction.read 1, RMWAction.write 1] = 2 ∧
    (0 : Int) + (1 + 1) = 2 ∧ (1 : Int) ≠ 2 := by
  refine ⟨rfl, rfl, rfl, by decide⟩

end GamingTwin
